import Mathlib

/-!
Verification development for the `elfbin` library: an incremental encoder
producing ELF relocatable object files whose symbols carry arbitrary data.

The definitions below are a shallow embedding of `src/lib.rs`.  The output
stream is modelled as a `List Nat` of bytes (each < 256 where produced by
serialisation); stream positions are list lengths.  The external `binbin`
sequential writer (excluded from the repository and specified only at its
interface boundary in the spec) is modelled by `encInt`, `padLen`, `patch`
and zero-fill `skip`, following the spec's description of that primitive.
-/

namespace Elfbin

/-- ELF file class (32-bit or 64-bit), from `enum Class` in lib.rs. -/
inductive Class where
  | ELF32
  | ELF64
deriving DecidableEq, Repr

/-- ELF encoding format (little endian or big endian), from `enum Encoding`. -/
inductive Encoding where
  | LSB
  | MSB
deriving DecidableEq, Repr

/-- Little-endian byte decomposition of `v` into `w` bytes (low byte first). -/
def leBytes : Nat → Nat → List Nat
  | 0, _ => []
  | w + 1, v => v % 256 :: leBytes w (v / 256)

/-- Modelled from the spec: the external writer primitive "write a fixed-width
integer at the current position (in the configured byte order)".  A `w`-byte
integer is serialised low-byte-first for LSB and high-byte-first for MSB. -/
def encInt (e : Encoding) (w v : Nat) : List Nat :=
  match e with
  | .LSB => leBytes w v
  | .MSB => (leBytes w v).reverse

/-- Little-endian recomposition of a byte list into a number. -/
def leDec : List Nat → Nat
  | [] => 0
  | b :: rest => b + 256 * leDec rest

/-- Decode a byte list as an integer in the given byte order. -/
def decInt (e : Encoding) (bs : List Nat) : Nat :=
  match e with
  | .LSB => leDec bs
  | .MSB => leDec bs.reverse

/-- Modelled from the spec: the external writer primitive "pad with a given
fill byte up to the next multiple of N, returning how many bytes were added".
`padLen n pos` is the number of fill bytes added at position `pos` to reach
the next multiple of `n` (zero when `pos` is already a multiple of `n`). -/
def padLen (n pos : Nat) : Nat := (n - pos % n) % n

/-- Modelled from the spec: the external writer primitive "resolve a token by
overwriting its original position with a final value without moving the
current cursor".  Overwrites `bs.length` bytes of `buf` at position `pos`. -/
def patch (buf : List Nat) (pos : Nat) (bs : List Nat) : List Nat :=
  buf.take pos ++ bs ++ buf.drop (pos + bs.length)

/-- Represents the main ELF header, from `struct Header` in lib.rs.
`machine` is a u16 value and `flags` a u32 value. -/
structure Header where
  cls : Class
  encoding : Encoding
  machine : Nat
  flags : Nat
deriving DecidableEq, Repr

/-- `ET_REL` constant from lib.rs. -/
def ET_REL : Nat := 1

def SHT_NULL : Nat := 0
def SHT_PROGBITS : Nat := 1
def SHT_SYMTAB : Nat := 2
def SHT_STRTAB : Nat := 3
def SHF_ALLOC : Nat := 2
def SHF_STRINGS : Nat := 32

/-- The fixed `.shstrtab` content from lib.rs: the bytes of
the string ".shstrtab", ".strtab", ".symtab", ".rodata", each
null-terminated, with a leading null. -/
def SHSTRTAB : List Nat :=
  [0,
   46, 115, 104, 115, 116, 114, 116, 97, 98, 0,
   46, 115, 116, 114, 116, 97, 98, 0,
   46, 115, 121, 109, 116, 97, 98, 0,
   46, 114, 111, 100, 97, 116, 97, 0]

def SHSTRTAB_SHSTRTAB : Nat := 1
def SHSTRTAB_STRTAB : Nat := 11
def SHSTRTAB_SYMTAB : Nat := 19
def SHSTRTAB_RODATA : Nat := 27

/-- The `repr(u8)` discriminant of `Class` written into the ident block. -/
def classByte : Class → Nat
  | .ELF32 => 1
  | .ELF64 => 2

/-- The `repr(u8)` discriminant of `Encoding` written into the ident block. -/
def encodingByte : Encoding → Nat
  | .LSB => 1
  | .MSB => 2

/-- `write_ident` from lib.rs: magic, class, encoding, version 1, ABI 0,
then 8 skipped (zero-filled) ident bytes. -/
def write_ident (hdr : Header) : List Nat :=
  [127, 69, 76, 70, classByte hdr.cls, encodingByte hdr.encoding, 1, 0]
    ++ List.replicate 8 0

/-- `write_hdr_32` from lib.rs.  Returns the header bytes (with the header
size deferred slot already resolved to the position reached after the last
fixed field, and padded to 4-byte alignment) together with the byte position
of the section-header-offset placeholder field. -/
def write_hdr_32 (hdr : Header) : List Nat × Nat :=
  let e := hdr.encoding
  let b1 := write_ident hdr ++ encInt e 2 ET_REL ++ encInt e 2 hdr.machine
    ++ encInt e 4 1 ++ encInt e 4 0 ++ encInt e 4 0
  let shoff_pos := b1.length
  let b3 := b1 ++ encInt e 4 0 ++ encInt e 4 hdr.flags
  let size_pos := b3.length
  let b4 := b3 ++ encInt e 2 0 ++ encInt e 2 0 ++ encInt e 2 0
    ++ encInt e 2 40 ++ encInt e 2 5 ++ encInt e 2 1
  let resolved := patch b4 size_pos (encInt e 2 (b4.length % 65536))
  (resolved ++ List.replicate (padLen 4 resolved.length) 0, shoff_pos)

/-- `write_hdr_64` from lib.rs, the 64-bit analogue of `write_hdr_32`. -/
def write_hdr_64 (hdr : Header) : List Nat × Nat :=
  let e := hdr.encoding
  let b1 := write_ident hdr ++ encInt e 2 ET_REL ++ encInt e 2 hdr.machine
    ++ encInt e 4 1 ++ encInt e 8 0 ++ encInt e 8 0
  let shoff_pos := b1.length
  let b3 := b1 ++ encInt e 8 0 ++ encInt e 4 hdr.flags
  let size_pos := b3.length
  let b4 := b3 ++ encInt e 2 0 ++ encInt e 2 0 ++ encInt e 2 0
    ++ encInt e 2 64 ++ encInt e 2 5 ++ encInt e 2 1
  let resolved := patch b4 size_pos (encInt e 2 (b4.length % 65536))
  (resolved ++ List.replicate (padLen 8 resolved.length) 0, shoff_pos)

/-- Represents one symbol written to a `Builder`, from `struct Symbol`. -/
structure Symbol where
  rodata_offset : Nat
  size : Nat
  padded_size : Nat
  alignment : Nat
deriving DecidableEq, Repr

/-- Represents an ELF file under construction, from `struct Builder`.
`buf` is the whole output stream so far; `shoff_field` is the
`HeaderMap.section_header_offset_field` byte position recorded for the
finalisation back-patch. -/
structure Builder where
  buf : List Nat
  cls : Class
  encoding : Encoding
  shoff_field : Nat
  rodata_pos : Nat
  current_rodata_offset : Nat
  symbols : List Symbol
  symbol_names : List (List Nat)
  shstrtab : List Nat
deriving DecidableEq, Repr

/-- `Builder::new` from lib.rs: writes the class-specific header and records
the position reached (the data region start) as `rodata_pos`. -/
def Builder.new (hdr : Header) : Builder :=
  let hw := match hdr.cls with
    | .ELF32 => write_hdr_32 hdr
    | .ELF64 => write_hdr_64 hdr
  { buf := hw.1
    cls := hdr.cls
    encoding := hdr.encoding
    shoff_field := hw.2
    rodata_pos := hw.1.length
    current_rodata_offset := 0
    symbols := []
    symbol_names := []
    shstrtab := SHSTRTAB }

/-- `Builder::set_section_name` from lib.rs: rebuilds the `.shstrtab`
content as the unchanged prefix of `SHSTRTAB` up to the `.rodata` name,
followed by the caller's replacement name and a null terminator. -/
def Builder.set_section_name (b : Builder) (name : List Nat) : Builder :=
  { b with shstrtab := SHSTRTAB.take SHSTRTAB_RODATA ++ name ++ [0] }

/-- `Builder::add_symbol_align` from lib.rs.  Pads to `alignment` with
ASCII space bytes (0x20 = 32), copies `src` verbatim, and records the
resulting `Symbol`.  The Rust code computes `offset % alignment`, which
panics when `alignment = 0`; that partiality is modelled by `none`. -/
def Builder.add_symbol_align (b : Builder) (name : List Nat) (alignment : Nat)
    (src : List Nat) : Option (Builder × Symbol) :=
  if alignment = 0 then none
  else
    let offset := b.current_rodata_offset
    let pad_err := offset % alignment
    let skip := if pad_err ≠ 0 then alignment - pad_err else 0
    let length := src.length
    let padded_size := length + skip
    let sym : Symbol :=
      { rodata_offset := offset + skip
        size := length
        padded_size := padded_size
        alignment := alignment }
    some ({ b with
            buf := b.buf ++ (List.replicate skip 32 ++ src)
            symbols := b.symbols ++ [sym]
            symbol_names := b.symbol_names ++ [name]
            current_rodata_offset := offset + padded_size }, sym)

/-- `Builder::add_symbol` from lib.rs: alignment defaults to the class's
word size, 4 for ELF32 and 8 for ELF64. -/
def Builder.add_symbol (b : Builder) (name : List Nat) (src : List Nat) :
    Option (Builder × Symbol) :=
  let align := match b.cls with
    | .ELF32 => 4
    | .ELF64 => 8
  b.add_symbol_align name align src

/-- The 32-bit symbol table entry shape, from `struct Symbol32` in lib.rs. -/
structure Symbol32 where
  name_idx : Nat
  value : Nat
  size : Nat
  info : Nat
  other : Nat
  section_idx : Nat
deriving DecidableEq, Repr

/-- The 64-bit symbol table entry shape, from `struct Symbol64` in lib.rs. -/
structure Symbol64 where
  name_idx : Nat
  info : Nat
  other : Nat
  section_idx : Nat
  value : Nat
  size : Nat
deriving DecidableEq, Repr

/-- The 32-bit section header shape, from `struct SectionHeader32`. -/
structure SectionHeader32 where
  name_idx : Nat
  typ : Nat
  flags : Nat
  addr : Nat
  offset : Nat
  size : Nat
  link : Nat
  info : Nat
  addralign : Nat
  entsize : Nat
deriving DecidableEq, Repr

/-- The 64-bit section header shape, from `struct SectionHeader64`. -/
structure SectionHeader64 where
  name_idx : Nat
  typ : Nat
  flags : Nat
  addr : Nat
  offset : Nat
  size : Nat
  link : Nat
  info : Nat
  addralign : Nat
  entsize : Nat
deriving DecidableEq, Repr

/-- `write_symbol_32` from lib.rs: u32 name, u32 value, u32 size, u8 info,
u8 other, u16 section index — 16 bytes per entry. -/
def write_symbol_32 (e : Encoding) (s : Symbol32) : List Nat :=
  encInt e 4 s.name_idx ++ encInt e 4 s.value ++ encInt e 4 s.size
    ++ encInt e 1 s.info ++ encInt e 1 s.other ++ encInt e 2 s.section_idx

/-- `write_symbol_64` from lib.rs: u32 name, u8 info, u8 other, u16 section
index, u64 value, u64 size — 24 bytes per entry. -/
def write_symbol_64 (e : Encoding) (s : Symbol64) : List Nat :=
  encInt e 4 s.name_idx ++ encInt e 1 s.info ++ encInt e 1 s.other
    ++ encInt e 2 s.section_idx ++ encInt e 8 s.value ++ encInt e 8 s.size

/-- `write_section_header_32` from lib.rs: ten u32 fields, 40 bytes. -/
def write_section_header_32 (e : Encoding) (h : SectionHeader32) : List Nat :=
  encInt e 4 h.name_idx ++ encInt e 4 h.typ ++ encInt e 4 h.flags
    ++ encInt e 4 h.addr ++ encInt e 4 h.offset ++ encInt e 4 h.size
    ++ encInt e 4 h.link ++ encInt e 4 h.info ++ encInt e 4 h.addralign
    ++ encInt e 4 h.entsize

/-- `write_section_header_64` from lib.rs: u32 name and type, u64 flags,
addr, offset and size, u32 link and info, u64 addralign and entsize — 64
bytes. -/
def write_section_header_64 (e : Encoding) (h : SectionHeader64) : List Nat :=
  encInt e 4 h.name_idx ++ encInt e 4 h.typ ++ encInt e 8 h.flags
    ++ encInt e 8 h.addr ++ encInt e 8 h.offset ++ encInt e 8 h.size
    ++ encInt e 4 h.link ++ encInt e 4 h.info ++ encInt e 8 h.addralign
    ++ encInt e 8 h.entsize

/-- The `symbol_name_idx` accumulation in `write_metadata_sections_32` and
`_64`: the running `.strtab` offset of each name, starting at 1, each pushed
as a u32 (truncated modulo 2^32, mirroring the Rust `idx as u32` cast). -/
def nameIdxFrom (idx : Nat) : List (List Nat) → List Nat
  | [] => []
  | n :: rest => idx % 4294967296 :: nameIdxFrom (idx + n.length + 1) rest

/-- The `.strtab` body after the leading null: each symbol name followed by
a null terminator, in registration order. -/
def strtabBody : List (List Nat) → List Nat
  | [] => []
  | n :: rest => n ++ [0] ++ strtabBody rest

/-- The all-zero symbol-table entry written first when any symbols exist. -/
def zeroSym32 : Symbol32 := ⟨0, 0, 0, 0, 0, 0⟩

/-- The all-zero 64-bit symbol-table entry. -/
def zeroSym64 : Symbol64 := ⟨0, 0, 0, 0, 0, 0⟩

/-- The per-symbol 32-bit symbol-table entry built in
`write_metadata_sections_32`: name offset, value = `rodata_offset as u32`,
size = `size as u32`, info = (STB_GLOBAL << 4) | STT_OBJECT = 17, other = 0,
section index 2 (`.rodata`). -/
def sym32entry (idx : Nat) (s : Symbol) : Symbol32 :=
  { name_idx := idx
    value := s.rodata_offset % 4294967296
    size := s.size % 4294967296
    info := 17
    other := 0
    section_idx := 2 }

/-- The per-symbol 64-bit symbol-table entry built in
`write_metadata_sections_64` (no width truncation of value or size). -/
def sym64entry (idx : Nat) (s : Symbol) : Symbol64 :=
  { name_idx := idx
    info := 17
    other := 0
    section_idx := 2
    value := s.rodata_offset
    size := s.size }

/-- The `.symtab` entry list written by `write_metadata_sections_32`: empty
when no symbols are registered (the whole emission is inside
`if !syms.is_empty()`), otherwise the zero entry followed by one entry per
symbol in registration order. -/
def symtabEntries32 (idxs : List Nat) (syms : List Symbol) : List Symbol32 :=
  if syms.isEmpty then []
  else zeroSym32 :: (syms.zip idxs).map (fun p => sym32entry p.2 p.1)

/-- The `.symtab` entry list written by `write_metadata_sections_64`. -/
def symtabEntries64 (idxs : List Nat) (syms : List Symbol) : List Symbol64 :=
  if syms.isEmpty then []
  else zeroSym64 :: (syms.zip idxs).map (fun p => sym64entry p.2 p.1)

/-- Concatenation of encoded entries. -/
def flattenBytes : List (List Nat) → List Nat
  | [] => []
  | b :: rest => b ++ flattenBytes rest

/-- The values recorded while writing the auxiliary sections, extending
`struct TrailerMap` from lib.rs with the intermediate positions and lengths
the source computes via `w.position()`, plus the emitted bytes. -/
structure TrailerMap where
  shstrtab_start : Nat
  shstrtab_len : Nat
  strtab_start : Nat
  strtab_len : Nat
  symtab_start : Nat
  symtab_len : Nat
  rodata_size : Nat
  rodata_align : Nat
  section_header_offset : Nat
  bytes : List Nat
deriving DecidableEq, Repr

/-- `write_metadata_sections_32` from lib.rs, called with the stream at
position `p0` (the end of the `.rodata` body).  Emits `.shstrtab`,
`.strtab`, `.symtab` and the five section headers, each group preceded by
alignment padding to 4 bytes, with all u32 offset and size fields truncated
modulo 2^32 (the Rust `as u32` casts). -/
def write_metadata_sections_32 (rodata_pos : Nat) (sym_names : List (List Nat))
    (syms : List Symbol) (shstrtab : List Nat) (e : Encoding) (p0 : Nat) :
    TrailerMap :=
  let M := 4294967296
  let pad1 := List.replicate (padLen 4 p0) 0
  let shstrtab_start := p0 + pad1.length
  let shstrtab_len := shstrtab.length
  let pos1 := shstrtab_start + shstrtab_len
  let pad2 := List.replicate (padLen 4 pos1) 0
  let strtab_start := pos1 + pad2.length
  let strtabBytes := 0 :: strtabBody sym_names
  let strtab_len := strtabBytes.length
  let pos2 := strtab_start + strtab_len
  let pad3 := List.replicate (padLen 4 pos2) 0
  let symtab_start := pos2 + pad3.length
  let entries := symtabEntries32 (nameIdxFrom 1 sym_names) syms
  let symtabBytes := flattenBytes (entries.map (write_symbol_32 e))
  let symtab_len := symtabBytes.length
  let rodata_size := (syms.map Symbol.padded_size).sum
  let rodata_align :=
    syms.foldl (fun a s => if s.alignment > a then s.alignment else a) 1
  let pos3 := symtab_start + symtab_len
  let pad4 := List.replicate (padLen 4 pos3) 0
  let section_header_pos := pos3 + pad4.length
  let sh :=
    write_section_header_32 e
      ⟨0, SHT_NULL, 0, 0, 0, 0, 0, 0, 0, 0⟩
    ++ write_section_header_32 e
      ⟨SHSTRTAB_SHSTRTAB, SHT_STRTAB, SHF_STRINGS, 0,
       shstrtab_start % M, shstrtab_len % M, 0, 0, 0, 1⟩
    ++ write_section_header_32 e
      ⟨SHSTRTAB_RODATA, SHT_PROGBITS, SHF_ALLOC, 0,
       rodata_pos % M, rodata_size % M, 0, 0, rodata_align % M, 0⟩
    ++ write_section_header_32 e
      ⟨SHSTRTAB_STRTAB, SHT_STRTAB, SHF_STRINGS, 0,
       strtab_start % M, strtab_len % M, 0, 0, 0, 1⟩
    ++ write_section_header_32 e
      ⟨SHSTRTAB_SYMTAB, SHT_SYMTAB, 0, 0,
       symtab_start % M, symtab_len % M, 3, 1, 0, 16⟩
  { shstrtab_start := shstrtab_start
    shstrtab_len := shstrtab_len
    strtab_start := strtab_start
    strtab_len := strtab_len
    symtab_start := symtab_start
    symtab_len := symtab_len
    rodata_size := rodata_size
    rodata_align := rodata_align
    section_header_offset := section_header_pos
    bytes := pad1 ++ shstrtab ++ pad2 ++ strtabBytes ++ pad3 ++ symtabBytes
      ++ pad4 ++ sh }

/-- `write_metadata_sections_64` from lib.rs: the 64-bit analogue, aligned
to 8 bytes, with u64 offset and size fields and symbol-table entry size 24. -/
def write_metadata_sections_64 (rodata_pos : Nat) (sym_names : List (List Nat))
    (syms : List Symbol) (shstrtab : List Nat) (e : Encoding) (p0 : Nat) :
    TrailerMap :=
  let pad1 := List.replicate (padLen 8 p0) 0
  let shstrtab_start := p0 + pad1.length
  let shstrtab_len := shstrtab.length
  let pos1 := shstrtab_start + shstrtab_len
  let pad2 := List.replicate (padLen 8 pos1) 0
  let strtab_start := pos1 + pad2.length
  let strtabBytes := 0 :: strtabBody sym_names
  let strtab_len := strtabBytes.length
  let pos2 := strtab_start + strtab_len
  let pad3 := List.replicate (padLen 8 pos2) 0
  let symtab_start := pos2 + pad3.length
  let entries := symtabEntries64 (nameIdxFrom 1 sym_names) syms
  let symtabBytes := flattenBytes (entries.map (write_symbol_64 e))
  let symtab_len := symtabBytes.length
  let rodata_size := (syms.map Symbol.padded_size).sum
  let rodata_align :=
    syms.foldl (fun a s => if s.alignment > a then s.alignment else a) 1
  let pos3 := symtab_start + symtab_len
  let pad4 := List.replicate (padLen 8 pos3) 0
  let section_header_pos := pos3 + pad4.length
  let sh :=
    write_section_header_64 e
      ⟨0, SHT_NULL, 0, 0, 0, 0, 0, 0, 0, 0⟩
    ++ write_section_header_64 e
      ⟨SHSTRTAB_SHSTRTAB, SHT_STRTAB, SHF_STRINGS, 0,
       shstrtab_start, shstrtab_len, 0, 0, 0, 1⟩
    ++ write_section_header_64 e
      ⟨SHSTRTAB_RODATA, SHT_PROGBITS, SHF_ALLOC, 0,
       rodata_pos, rodata_size, 0, 0, rodata_align, 0⟩
    ++ write_section_header_64 e
      ⟨SHSTRTAB_STRTAB, SHT_STRTAB, SHF_STRINGS, 0,
       strtab_start, strtab_len, 0, 0, 0, 1⟩
    ++ write_section_header_64 e
      ⟨SHSTRTAB_SYMTAB, SHT_SYMTAB, 0, 0,
       symtab_start, symtab_len, 3, 1, 0, 24⟩
  { shstrtab_start := shstrtab_start
    shstrtab_len := shstrtab_len
    strtab_start := strtab_start
    strtab_len := strtab_len
    symtab_start := symtab_start
    symtab_len := symtab_len
    rodata_size := rodata_size
    rodata_align := rodata_align
    section_header_offset := section_header_pos
    bytes := pad1 ++ shstrtab ++ pad2 ++ strtabBytes ++ pad3 ++ symtabBytes
      ++ pad4 ++ sh }

/-- The trailer map computed during `Builder::close`. -/
def Builder.closeMap (b : Builder) : TrailerMap :=
  match b.cls with
  | .ELF32 =>
    write_metadata_sections_32 b.rodata_pos b.symbol_names b.symbols
      b.shstrtab b.encoding b.buf.length
  | .ELF64 =>
    write_metadata_sections_64 b.rodata_pos b.symbol_names b.symbols
      b.shstrtab b.encoding b.buf.length

/-- `Builder::close` from lib.rs: appends the metadata sections, then seeks
back to the header's section-header-offset placeholder and overwrites it
with the recorded section header table position (cast to the class's word
width), leaving the rest of the stream untouched. -/
def Builder.close (b : Builder) : List Nat :=
  let m := b.closeMap
  let buf := b.buf ++ m.bytes
  match b.cls with
  | .ELF32 =>
    patch buf b.shoff_field
      (encInt b.encoding 4 (m.section_header_offset % 4294967296))
  | .ELF64 =>
    patch buf b.shoff_field
      (encInt b.encoding 8 (m.section_header_offset % 18446744073709551616))

/-! ## Reference inputs used by concrete results -/

/-- The 32-bit/little-endian/ARM/flags 0x05000000 header used by the spec's
reference output and the repository's tests. -/
def refHdr32 : Header := ⟨Class.ELF32, Encoding.LSB, 40, 83886080⟩

/-- The 64-bit variant of the reference header. -/
def refHdr64 : Header := ⟨Class.ELF64, Encoding.LSB, 40, 83886080⟩

/-- The 52 header bytes of the spec's reference dump for
32-bit/little-endian/machine 0x28/flags 0x05000000 with no symbols, with
the patched section-header-table offset (0x5C = 92 here) at offset 0x20
and the declared header size 0x0034 = 52 at offset 0x28. -/
def referenceDump52 : List Nat :=
  [127, 69, 76, 70, 1, 1, 1, 0, 0, 0, 0, 0, 0, 0, 0, 0,
   1, 0, 40, 0, 1, 0, 0, 0, 0, 0, 0, 0, 0, 0, 0, 0,
   92, 0, 0, 0, 0, 0, 0, 5, 52, 0, 0, 0, 0, 0, 40, 0,
   5, 0, 1, 0]

/-- The null-terminated string stored at byte offset `i` of a string
table. -/
def cstrAt (bs : List Nat) (i : Nat) : List Nat :=
  (bs.drop i).takeWhile (fun b => b ≠ 0)

/-- The fourteen fixed header fields of the 32-bit header, in emission
order, before the deferred size slot is resolved. -/
def hdrFields32 (hdr : Header) : List Nat :=
  write_ident hdr ++ encInt hdr.encoding 2 ET_REL
    ++ encInt hdr.encoding 2 hdr.machine
    ++ encInt hdr.encoding 4 1 ++ encInt hdr.encoding 4 0
    ++ encInt hdr.encoding 4 0
    ++ encInt hdr.encoding 4 0 ++ encInt hdr.encoding 4 hdr.flags
    ++ encInt hdr.encoding 2 0 ++ encInt hdr.encoding 2 0
    ++ encInt hdr.encoding 2 0
    ++ encInt hdr.encoding 2 40 ++ encInt hdr.encoding 2 5
    ++ encInt hdr.encoding 2 1

/-- The fourteen fixed header fields of the 64-bit header. -/
def hdrFields64 (hdr : Header) : List Nat :=
  write_ident hdr ++ encInt hdr.encoding 2 ET_REL
    ++ encInt hdr.encoding 2 hdr.machine
    ++ encInt hdr.encoding 4 1 ++ encInt hdr.encoding 8 0
    ++ encInt hdr.encoding 8 0
    ++ encInt hdr.encoding 8 0 ++ encInt hdr.encoding 4 hdr.flags
    ++ encInt hdr.encoding 2 0 ++ encInt hdr.encoding 2 0
    ++ encInt hdr.encoding 2 0
    ++ encInt hdr.encoding 2 64 ++ encInt hdr.encoding 2 5
    ++ encInt hdr.encoding 2 1

/-! ## General lemmas about the byte-writer model -/

theorem length_leBytes (w v : Nat) : (leBytes w v).length = w := by
  induction w generalizing v with
  | zero => rfl
  | succ w ih => simp [leBytes, ih]

theorem length_encInt (e : Encoding) (w v : Nat) : (encInt e w v).length = w := by
  cases e <;> simp [encInt, length_leBytes]

theorem leDec_leBytes (w v : Nat) : leDec (leBytes w v) = v % 256 ^ w := by
  induction w generalizing v with
  | zero => simp [leBytes, leDec, Nat.mod_one]
  | succ w ih =>
    simp only [leBytes, leDec, ih]
    rw [Nat.pow_succ, Nat.mul_comm (256 ^ w) 256, Nat.mod_mul]

theorem decInt_encInt (e : Encoding) (w v : Nat) :
    decInt e (encInt e w v) = v % 256 ^ w := by
  cases e <;> simp [decInt, encInt, List.reverse_reverse, leDec_leBytes]

theorem patch_length (buf bs : List Nat) (pos : Nat)
    (h : pos + bs.length ≤ buf.length) :
    (patch buf pos bs).length = buf.length := by
  simp only [patch, List.length_append, List.length_take, List.length_drop]
  omega

theorem take_drop_middle (l₁ l₂ l₃ : List Nat) (n k : Nat)
    (h1 : l₁.length = n) (h2 : l₂.length = k) :
    ((l₁ ++ l₂ ++ l₃).drop n).take k = l₂ := by
  rw [List.append_assoc, List.drop_left' h1, List.take_left' h2]

theorem align_offset_mod (offset align : Nat) (h : 0 < align) :
    (offset + (if offset % align ≠ 0 then align - offset % align else 0))
      % align = 0 := by
  by_cases hr : offset % align = 0
  · simp [hr]
  · have h1 : offset % align < align := Nat.mod_lt _ h
    simp only [ne_eq, hr, not_false_eq_true, if_true]
    rw [Nat.add_mod,
      Nat.mod_eq_of_lt (show align - offset % align < align by omega),
      show offset % align + (align - offset % align) = align by omega,
      Nat.mod_self]

theorem length_write_symbol_32 (e : Encoding) (s : Symbol32) :
    (write_symbol_32 e s).length = 16 := by
  simp [write_symbol_32, length_encInt]

theorem length_write_symbol_64 (e : Encoding) (s : Symbol64) :
    (write_symbol_64 e s).length = 24 := by
  simp [write_symbol_64, length_encInt]

theorem length_flattenBytes_map {α : Type} (f : α → List Nat) (k : Nat)
    (l : List α) (h : ∀ x, (f x).length = k) :
    (flattenBytes (l.map f)).length = k * l.length := by
  induction l with
  | nil => simp [flattenBytes]
  | cons x xs ih =>
    simp only [List.map_cons, flattenBytes, List.length_append, h, ih,
      List.length_cons]
    ring

theorem length_nameIdxFrom (i : Nat) (names : List (List Nat)) :
    (nameIdxFrom i names).length = names.length := by
  induction names generalizing i with
  | nil => rfl
  | cons n rest ih => simp [nameIdxFrom, ih]

/-! ## Claim C4: alignment invariant -/

/-- C4: For every symbol registered with alignment A >= 1 (and in particular
through `add_symbol`, whose default alignment is the class width 4 or 8),
the recorded `rodata_offset` (dataOffset relative to the data region start)
is a multiple of A, whatever the builder's accumulated state is.  The
`getD 1` default makes the statement false rather than vacuous if the
operation were to fail. -/
theorem add_symbol_align_respects_alignment (b : Builder)
    (name src : List Nat) (alignment : Nat) (h : 0 < alignment) :
    (((b.add_symbol_align name alignment src).map
        (fun r => r.2.rodata_offset % alignment)).getD 1 = 0) ∧
    (((b.add_symbol name src).map
        (fun r => r.2.rodata_offset %
          (match b.cls with | Class.ELF32 => 4 | Class.ELF64 => 8))).getD 1
      = 0) := by
  constructor
  · have hne : alignment ≠ 0 := by omega
    simp only [Builder.add_symbol_align, if_neg hne, Option.map_some',
      Option.getD_some]
    exact align_offset_mod b.current_rodata_offset alignment h
  · unfold Builder.add_symbol
    cases b.cls <;>
      simp only [Builder.add_symbol_align,
        if_neg (by norm_num : ¬ ((4:Nat) = 0)),
        if_neg (by norm_num : ¬ ((8:Nat) = 0)),
        Option.map_some', Option.getD_some] <;>
      exact align_offset_mod b.current_rodata_offset _ (by norm_num)

/-- Witness for C4 at a concrete input. -/
theorem add_symbol_align_respects_alignment_witness :
    ((0:Nat) < 4) ∧
    (((Builder.new refHdr32).add_symbol_align [65] 4 [97]).map
        (fun r => r.2.rodata_offset % 4)).getD 1 = 0 :=
  ⟨by norm_num,
   (add_symbol_align_respects_alignment (Builder.new refHdr32) [65] [97] 4
     (by norm_num)).1⟩

/-! ## Claim C6: output growth of symbol registration -/

/-- C6 counterexample: registering a zero-length source at an already
aligned offset writes no bytes at all, so the total output length does not
strictly increase: for the fresh 32-bit reference builder (output length
52), `add_symbol` with an empty source leaves the output at exactly the old
length 52. -/
theorem add_symbol_empty_source_no_growth :
    (((Builder.new refHdr32).add_symbol [88] []).map
        (fun r => r.1.buf.length)).getD 0 = 52 ∧
    (Builder.new refHdr32).buf.length = 52 ∧
    ¬ ((Builder.new refHdr32).buf.length <
        (((Builder.new refHdr32).add_symbol [88] []).map
          (fun r => r.1.buf.length)).getD 0) := by
  refine ⟨by rfl, by rfl, by decide⟩

/-- C6 amended: each `add_symbol_align` call (with nonzero alignment, hence
also each `add_symbol` call) grows the total output length by exactly the
returned symbol's `padded_size` (alignment padding plus source length) —
so the length never decreases, and it strictly increases whenever the
source is non-empty; with an empty source at an aligned offset it is
unchanged. -/
theorem add_symbol_align_growth (b : Builder) (name src : List Nat)
    (alignment : Nat) (h : 0 < alignment) :
    ((b.add_symbol_align name alignment src).map
        (fun r => r.1.buf.length)).getD 0
      = b.buf.length
        + ((b.add_symbol_align name alignment src).map
            (fun r => r.2.padded_size)).getD 0 ∧
    (0 < src.length →
      b.buf.length <
        ((b.add_symbol_align name alignment src).map
          (fun r => r.1.buf.length)).getD 0) := by
  have hne : alignment ≠ 0 := by omega
  constructor
  · simp only [Builder.add_symbol_align, if_neg hne, Option.map_some',
      Option.getD_some, List.length_append, List.length_replicate]
    omega
  · intro hs
    simp only [Builder.add_symbol_align, if_neg hne, Option.map_some',
      Option.getD_some, List.length_append, List.length_replicate]
    omega

/-- Witness for the amended C6 at a concrete input with a non-empty
source. -/
theorem add_symbol_align_growth_witness :
    ((0:Nat) < 4) ∧ ((0:Nat) < [97].length) ∧
    (Builder.new refHdr32).buf.length <
      (((Builder.new refHdr32).add_symbol_align [65] 4 [97]).map
        (fun r => r.1.buf.length)).getD 0 :=
  ⟨by norm_num, by norm_num,
   (add_symbol_align_growth (Builder.new refHdr32) [65] [97] 4
     (by norm_num)).2 (by norm_num)⟩

/-! ## Claim C7: inter-symbol padding bytes -/

/-- C7: the bytes appended by `add_symbol_align` are exactly
`padded_size - size` copies of the ASCII space character 0x20 = 32 (never
zero bytes) followed by the source bytes verbatim, and the recorded
`size` (rawSize) is exactly the number of source bytes — padding is never
counted in it. -/
theorem add_symbol_align_padding_bytes (b : Builder) (name src : List Nat)
    (alignment : Nat) (h : 0 < alignment) :
    ((b.add_symbol_align name alignment src).map (fun r => r.1.buf)).getD []
      = b.buf
        ++ List.replicate
            (((b.add_symbol_align name alignment src).map
               (fun r => r.2.padded_size - r.2.size)).getD 0) 32
        ++ src ∧
    ((b.add_symbol_align name alignment src).map (fun r => r.2.size)).getD 0
      = src.length := by
  have hne : alignment ≠ 0 := by omega
  constructor
  · simp only [Builder.add_symbol_align, if_neg hne, Option.map_some',
      Option.getD_some, Nat.add_sub_cancel_left, List.append_assoc]
  · simp only [Builder.add_symbol_align, if_neg hne, Option.map_some',
      Option.getD_some]

/-- Witness for C7 at a concrete input that does require padding (second
symbol after a 2-byte source, so two space bytes precede it). -/
theorem add_symbol_align_padding_bytes_witness :
    ((0:Nat) < 4) ∧
    ((((Builder.new refHdr32).add_symbol_align [65] 4 [97, 121]).map
        (fun r => r.1.buf)).getD []
      = (Builder.new refHdr32).buf
        ++ List.replicate
            ((((Builder.new refHdr32).add_symbol_align [65] 4
                [97, 121]).map
               (fun r => r.2.padded_size - r.2.size)).getD 0) 32
        ++ [97, 121]) :=
  ⟨by norm_num,
   (add_symbol_align_padding_bytes (Builder.new refHdr32) [65] [97, 121] 4
     (by norm_num)).1⟩

/-! ## Claim C9: the alignment >= 1 precondition -/

/-- C9: `add_symbol_align` is total (returns a result) for every alignment
>= 1, while alignment = 0 hits the remainder-by-zero in
`offset % alignment` (modelled as `none`); the default `add_symbol` path
always passes 4 or 8 and therefore always succeeds. -/
theorem add_symbol_align_zero_alignment (b : Builder)
    (name src : List Nat) (alignment : Nat) :
    (0 < alignment →
      (b.add_symbol_align name alignment src).isSome = true) ∧
    b.add_symbol_align name 0 src = none ∧
    (b.add_symbol name src).isSome = true := by
  refine ⟨fun h => ?_, ?_, ?_⟩
  · have hne : alignment ≠ 0 := by omega
    simp [Builder.add_symbol_align, if_neg hne]
  · simp [Builder.add_symbol_align]
  · unfold Builder.add_symbol
    cases b.cls <;> simp [Builder.add_symbol_align]

/-- Witness for C9 at a concrete input. -/
theorem add_symbol_align_zero_alignment_witness :
    ((Builder.new refHdr32).add_symbol_align [65] 4 [97]).isSome = true ∧
    (Builder.new refHdr32).add_symbol_align [65] 0 [97] = none ∧
    ((Builder.new refHdr32).add_symbol [65] [97]).isSome = true :=
  ⟨(add_symbol_align_zero_alignment (Builder.new refHdr32) [65] [97]
      4).1 (by norm_num),
   (add_symbol_align_zero_alignment (Builder.new refHdr32) [65] [97] 4).2.1,
   (add_symbol_align_zero_alignment (Builder.new refHdr32) [65] [97]
      4).2.2⟩

/-! ## Claim C2: the three-symbol reference scenario -/

/-- C2: evaluating the code on the spec's three-symbol scenario
("A" -> "ay", "B" -> "bee", "C" -> "see", default alignment).  The
dataOffsets (0, 4, 8 at 32-bit; 0, 8, 16 at 64-bit) and rawSizes (2, 3, 3)
match the claim, but the recorded `padded_size` values are 2, 5, 4
(32-bit) and 2, 9, 8 (64-bit): the code charges each symbol with the
padding written *before* its own data, not the trailing padding the claim
(and the repository's own tests, which expect 4, 4, 4 and 8, 8, 8) assign. -/
theorem three_symbols_symbol_records :
    ((((Builder.new refHdr32).add_symbol [65] [97, 121]).bind fun r =>
       ((r.1.add_symbol [66] [98, 101, 101]).bind fun r2 =>
        ((r2.1.add_symbol [67] [115, 101, 101]).map fun r3 =>
          r3.1.symbols)))
      = some [⟨0, 2, 2, 4⟩, ⟨4, 3, 5, 4⟩, ⟨8, 3, 4, 4⟩]) ∧
    ((((Builder.new refHdr64).add_symbol [65] [97, 121]).bind fun r =>
       ((r.1.add_symbol [66] [98, 101, 101]).bind fun r2 =>
        ((r2.1.add_symbol [67] [115, 101, 101]).map fun r3 =>
          r3.1.symbols)))
      = some [⟨0, 2, 2, 8⟩, ⟨8, 3, 9, 8⟩, ⟨16, 3, 8, 8⟩]) :=
  ⟨rfl, rfl⟩

/-! ## Claim C1: shape of the emitted symbol table -/

/-- C1 counterexample: closing a builder with zero registered symbols emits
an empty symbol table — zero entries and zero bytes — not the single
mandatory zero entry the claim requires for N = 0 (the whole symbol-table
emission in `write_metadata_sections_32`/`_64` sits inside
`if !syms.is_empty()`). -/
theorem symtab_empty_for_no_symbols :
    (write_metadata_sections_32 52 [] [] SHSTRTAB Encoding.LSB
        52).symtab_len = 0 ∧
    (write_metadata_sections_64 64 [] [] SHSTRTAB Encoding.LSB
        64).symtab_len = 0 ∧
    ¬ ((symtabEntries32 (nameIdxFrom 1 []) []).length = 0 + 1) ∧
    ¬ ((symtabEntries64 (nameIdxFrom 1 []) []).length = 0 + 1) := by
  refine ⟨rfl, rfl, by decide, by decide⟩

/-- C1 amended: for every class and encoding, when N >= 1 symbols are
registered the emitted symbol table has exactly N+1 entries — the
all-zero entry first, then one entry per registered symbol in registration
order carrying its cumulative name-table offset, its dataOffset as value
and its rawSize as size (truncated to u32 in the 32-bit class) — occupying
16 (N+1) bytes at 32-bit and 24 (N+1) bytes at 64-bit; when N = 0 the
symbol table is empty. -/
theorem symtab_shape_nonempty (e : Encoding) (rp p0 : Nat)
    (names : List (List Nat)) (syms : List Symbol)
    (hne : syms ≠ []) (hlen : names.length = syms.length) :
    (write_metadata_sections_32 rp names syms SHSTRTAB e p0).symtab_len
        = 16 * (syms.length + 1) ∧
    (write_metadata_sections_64 rp names syms SHSTRTAB e p0).symtab_len
        = 24 * (syms.length + 1) ∧
    symtabEntries32 (nameIdxFrom 1 names) syms
        = zeroSym32
          :: (syms.zip (nameIdxFrom 1 names)).map
              (fun p => sym32entry p.2 p.1) ∧
    symtabEntries64 (nameIdxFrom 1 names) syms
        = zeroSym64
          :: (syms.zip (nameIdxFrom 1 names)).map
              (fun p => sym64entry p.2 p.1) ∧
    (symtabEntries32 (nameIdxFrom 1 names) syms).length
        = syms.length + 1 ∧
    (symtabEntries64 (nameIdxFrom 1 names) syms).length
        = syms.length + 1 := by
  have hE : syms.isEmpty = false := by
    cases syms with
    | nil => exact absurd rfl hne
    | cons s rest => rfl
  have h32 : symtabEntries32 (nameIdxFrom 1 names) syms
      = zeroSym32
        :: (syms.zip (nameIdxFrom 1 names)).map
            (fun p => sym32entry p.2 p.1) := by
    simp [symtabEntries32, hE]
  have h64 : symtabEntries64 (nameIdxFrom 1 names) syms
      = zeroSym64
        :: (syms.zip (nameIdxFrom 1 names)).map
            (fun p => sym64entry p.2 p.1) := by
    simp [symtabEntries64, hE]
  have hlen32 : (symtabEntries32 (nameIdxFrom 1 names) syms).length
      = syms.length + 1 := by
    simp [h32, List.length_zip, length_nameIdxFrom, hlen]
  have hlen64 : (symtabEntries64 (nameIdxFrom 1 names) syms).length
      = syms.length + 1 := by
    simp [h64, List.length_zip, length_nameIdxFrom, hlen]
  refine ⟨?_, ?_, h32, h64, hlen32, hlen64⟩
  · simp only [write_metadata_sections_32]
    rw [length_flattenBytes_map _ 16 _ (length_write_symbol_32 e), hlen32]
  · simp only [write_metadata_sections_64]
    rw [length_flattenBytes_map _ 24 _ (length_write_symbol_64 e), hlen64]

/-- Witness for the amended C1 at a concrete one-symbol input. -/
theorem symtab_shape_nonempty_witness :
    (([(⟨0, 2, 2, 4⟩ : Symbol)] : List Symbol) ≠ []) ∧
    ([[65]].length = [(⟨0, 2, 2, 4⟩ : Symbol)].length) ∧
    (write_metadata_sections_32 52 [[65]] [⟨0, 2, 2, 4⟩] SHSTRTAB
        Encoding.LSB 54).symtab_len = 16 * (1 + 1) :=
  ⟨by decide, by decide,
   (symtab_shape_nonempty Encoding.LSB 52 54 [[65]] [⟨0, 2, 2, 4⟩]
     (by decide) (by decide)).1⟩

/-! ## Claim C3: the no-symbol 32-bit reference output -/

set_option maxRecDepth 100000 in
/-- C3 counterexample: in the no-symbol reference output the first
auxiliary section (`.shstrtab`) starts at offset 52, immediately after the
52-byte header — not at 56 after 4 bytes of padding as the claim states
(52 is already a multiple of the alignment 4, so the align step adds no
bytes). -/
theorem no_symbol_output_no_header_padding :
    ¬ (((Builder.new refHdr32).close.take 52 = referenceDump52) ∧
       (Builder.new refHdr32).closeMap.shstrtab_start = 52 + 4) := by
  decide

set_option maxRecDepth 100000 in
/-- C3 amended: the first 52 bytes of the no-symbol
32-bit/little-endian/machine 0x28/flags 0x05000000 output are exactly the
spec's reference dump (with the section-header offset patched to 92), and
they are followed by zero bytes of padding: the first auxiliary section
(`.shstrtab`) begins immediately at offset 52. -/
theorem no_symbol_output_header_dump :
    (Builder.new refHdr32).close.take 52 = referenceDump52 ∧
    padLen 4 (write_hdr_32 refHdr32).1.length = 0 ∧
    (Builder.new refHdr32).closeMap.shstrtab_start = 52 ∧
    ((Builder.new refHdr32).close.drop 52).take 35 = SHSTRTAB := by
  refine ⟨by decide, by decide, by decide, by decide⟩

/-! ## Claim C8: section-name replacement preserves fixed offsets -/

/-- C8: for every replacement name, `set_section_name` leaves the first
`SHSTRTAB_RODATA` bytes of the section-name table unchanged, so the
null-terminated names read at the three fixed offsets 1 (".shstrtab"),
11 (".strtab") and 19 (".symtab") are exactly those of the default table:
the replacement only appends content after the unchanged prefix. -/
theorem set_section_name_preserves_fixed_offsets (b : Builder)
    (name : List Nat) :
    ((b.set_section_name name).shstrtab).take SHSTRTAB_RODATA
        = SHSTRTAB.take SHSTRTAB_RODATA ∧
    cstrAt ((b.set_section_name name).shstrtab) SHSTRTAB_SHSTRTAB
        = cstrAt SHSTRTAB SHSTRTAB_SHSTRTAB ∧
    cstrAt ((b.set_section_name name).shstrtab) SHSTRTAB_STRTAB
        = cstrAt SHSTRTAB SHSTRTAB_STRTAB ∧
    cstrAt ((b.set_section_name name).shstrtab) SHSTRTAB_SYMTAB
        = cstrAt SHSTRTAB SHSTRTAB_SYMTAB :=
  ⟨rfl, rfl, rfl, rfl⟩

/-! ## Claim C10: 32-bit truncation of 64-bit quantities -/

/-- C10: in the 32-bit class every offset/size quantity is written through
a 4-byte encoding, and a 4-byte encoding holds exactly the value modulo
2^32: decoding any 4-byte field recovers the original value exactly when
it fits in 32 bits.  In particular the symbol-table entry built for a
symbol carries `rodata_offset` and `size` truncated modulo 2^32 (the Rust
`as u32` casts), and the `offset` and `size` fields of an encoded 32-bit
section header (bytes 16..20 and 20..24) decode to the stored values
modulo 2^32. -/
theorem fields_truncated_mod_2_32 (e : Encoding) (v idx : Nat) (s : Symbol)
    (h : SectionHeader32) :
    decInt e (encInt e 4 v) = v % 4294967296 ∧
    (decInt e (encInt e 4 v) = v ↔ v < 4294967296) ∧
    (sym32entry idx s).value = s.rodata_offset % 4294967296 ∧
    (sym32entry idx s).size = s.size % 4294967296 ∧
    decInt e (((write_section_header_32 e h).drop 16).take 4)
        = h.offset % 4294967296 ∧
    decInt e (((write_section_header_32 e h).drop 20).take 4)
        = h.size % 4294967296 := by
  have hdec : ∀ x : Nat, decInt e (encInt e 4 x) = x % 4294967296 := by
    intro x; rw [decInt_encInt]; norm_num
  refine ⟨hdec v, ?_, rfl, rfl, ?_, ?_⟩
  · constructor
    · intro hv
      rw [hdec v] at hv
      calc v = v % 4294967296 := hv.symm
        _ < 4294967296 := Nat.mod_lt _ (by norm_num)
    · intro hv
      rw [hdec v]; exact Nat.mod_eq_of_lt hv
  · have hgroup : write_section_header_32 e h
        = (encInt e 4 h.name_idx ++ encInt e 4 h.typ ++ encInt e 4 h.flags
            ++ encInt e 4 h.addr)
          ++ encInt e 4 h.offset
          ++ (encInt e 4 h.size ++ encInt e 4 h.link ++ encInt e 4 h.info
            ++ encInt e 4 h.addralign ++ encInt e 4 h.entsize) := by
      simp [write_section_header_32, List.append_assoc]
    rw [hgroup, take_drop_middle _ _ _ 16 4 (by simp [length_encInt])
      (length_encInt e 4 _)]
    exact hdec _
  · have hgroup : write_section_header_32 e h
        = (encInt e 4 h.name_idx ++ encInt e 4 h.typ ++ encInt e 4 h.flags
            ++ encInt e 4 h.addr ++ encInt e 4 h.offset)
          ++ encInt e 4 h.size
          ++ (encInt e 4 h.link ++ encInt e 4 h.info
            ++ encInt e 4 h.addralign ++ encInt e 4 h.entsize) := by
      simp [write_section_header_32, List.append_assoc]
    rw [hgroup, take_drop_middle _ _ _ 20 4 (by simp [length_encInt])
      (length_encInt e 4 _)]
    exact hdec _

/-! ## Claim C5: the declared header size -/

theorem length_write_ident (hdr : Header) : (write_ident hdr).length = 16 := by
  simp [write_ident]

theorem hdrFields32_length (hdr : Header) : (hdrFields32 hdr).length = 52 := by
  simp [hdrFields32, length_write_ident, length_encInt]

theorem hdrFields64_length (hdr : Header) : (hdrFields64 hdr).length = 64 := by
  simp [hdrFields64, length_write_ident, length_encInt]

theorem write_hdr_32_eq (hdr : Header) :
    write_hdr_32 hdr
      = (patch (hdrFields32 hdr) 40 (encInt hdr.encoding 2 52)
          ++ List.replicate
              (padLen 4 (patch (hdrFields32 hdr) 40
                (encInt hdr.encoding 2 52)).length) 0,
         32) := by
  simp only [write_hdr_32, hdrFields32]
  norm_num [length_write_ident, length_encInt, List.length_append]

theorem write_hdr_64_eq (hdr : Header) :
    write_hdr_64 hdr
      = (patch (hdrFields64 hdr) 52 (encInt hdr.encoding 2 64)
          ++ List.replicate
              (padLen 8 (patch (hdrFields64 hdr) 52
                (encInt hdr.encoding 2 64)).length) 0,
         40) := by
  simp only [write_hdr_64, hdrFields64]
  norm_num [length_write_ident, length_encInt, List.length_append]

theorem write_hdr_32_patched_length (hdr : Header) :
    (patch (hdrFields32 hdr) 40 (encInt hdr.encoding 2 52)).length = 52 := by
  rw [patch_length _ _ _
    (by rw [length_encInt, hdrFields32_length]; omega)]
  exact hdrFields32_length hdr

theorem write_hdr_64_patched_length (hdr : Header) :
    (patch (hdrFields64 hdr) 52 (encInt hdr.encoding 2 64)).length = 64 := by
  rw [patch_length _ _ _
    (by rw [length_encInt, hdrFields64_length]; omega)]
  exact hdrFields64_length hdr

theorem write_hdr_32_length (hdr : Header) :
    (write_hdr_32 hdr).1.length = 52 := by
  rw [write_hdr_32_eq]
  simp only [List.length_append, List.length_replicate, padLen,
    write_hdr_32_patched_length]

theorem write_hdr_64_length (hdr : Header) :
    (write_hdr_64 hdr).1.length = 64 := by
  rw [write_hdr_64_eq]
  simp only [List.length_append, List.length_replicate, padLen,
    write_hdr_64_patched_length]

theorem write_hdr_32_size_field (hdr : Header) :
    ((write_hdr_32 hdr).1.drop 40).take 2 = encInt hdr.encoding 2 52 := by
  rw [write_hdr_32_eq]
  have h0 : padLen 4 (patch (hdrFields32 hdr) 40
      (encInt hdr.encoding 2 52)).length = 0 := by
    rw [write_hdr_32_patched_length]; rfl
  rw [h0]
  simp only [List.replicate, List.append_nil]
  have := take_drop_middle ((hdrFields32 hdr).take 40)
    (encInt hdr.encoding 2 52)
    ((hdrFields32 hdr).drop (40 + (encInt hdr.encoding 2 52).length)) 40 2
    (by simp [List.length_take, hdrFields32_length])
    (length_encInt _ _ _)
  exact this

theorem write_hdr_64_size_field (hdr : Header) :
    ((write_hdr_64 hdr).1.drop 52).take 2 = encInt hdr.encoding 2 64 := by
  rw [write_hdr_64_eq]
  have h0 : padLen 8 (patch (hdrFields64 hdr) 52
      (encInt hdr.encoding 2 64)).length = 0 := by
    rw [write_hdr_64_patched_length]; rfl
  rw [h0]
  simp only [List.replicate, List.append_nil]
  have := take_drop_middle ((hdrFields64 hdr).take 52)
    (encInt hdr.encoding 2 64)
    ((hdrFields64 hdr).drop (52 + (encInt hdr.encoding 2 64).length)) 52 2
    (by simp [List.length_take, hdrFields64_length])
    (length_encInt _ _ _)
  exact this

/-- C5: for every encoding and every machine/flags value, the header
writer's resolved declared-size field (the two bytes at offset 40 of the
32-bit header, 52 of the 64-bit header) decodes to exactly the true byte
length of the fixed header it emitted: 52 for the 32-bit class and 64 for
the 64-bit class. -/
theorem header_declared_size_eq_true_length (e : Encoding) (m f : Nat) :
    (write_hdr_32 ⟨Class.ELF32, e, m, f⟩).1.length = 52 ∧
    decInt e (((write_hdr_32 ⟨Class.ELF32, e, m, f⟩).1.drop 40).take 2)
        = 52 ∧
    (write_hdr_64 ⟨Class.ELF64, e, m, f⟩).1.length = 64 ∧
    decInt e (((write_hdr_64 ⟨Class.ELF64, e, m, f⟩).1.drop 52).take 2)
        = 64 := by
  refine ⟨write_hdr_32_length _, ?_, write_hdr_64_length _, ?_⟩
  · rw [write_hdr_32_size_field ⟨Class.ELF32, e, m, f⟩]
    rw [show (Header.mk Class.ELF32 e m f).encoding = e from rfl,
      decInt_encInt]
    norm_num
  · rw [write_hdr_64_size_field ⟨Class.ELF64, e, m, f⟩]
    rw [show (Header.mk Class.ELF64 e m f).encoding = e from rfl,
      decInt_encInt]
    norm_num

end Elfbin
